import Mathlib

/-!
Shallow embedding of `src/lib/realtime-session.ts` (the `RealtimeSession`
class): a client-side session controller that turns a newline-delimited
JSON event stream into an incrementally updated conversation transcript.

Modelling conventions:
* JavaScript JSON values are the inductive `RTS.Json`.  `JSON.parse` is
  embedded as the fueled recursive-descent parser `RTS.parseJson`
  (fuel is always sufficient: every two fuel ticks consume at least one
  character).  Numbers keep their source lexeme; the protocol events this
  session consumes never compare or compute with numbers.
* Field accesses on parsed events follow the declared `StreamEvent` wire
  types of the source: a field whose runtime value has a different
  primitive type than declared is treated as absent.
* `Date.now()` / `Math.random()` id generation is modelled by a
  per-session counter `fresh`; the source relies on these ids being
  unique, which appears as explicit freshness hypotheses.
* Listener notification (`emit`) is modelled by the counter `emits`;
  invocation of the caller's `onError` callback by `errorCalls`.
* The one JavaScript exception reachable inside `processLine`
  (reading `.type` of a parsed `null`) is modelled by `Except.error`.
-/

namespace RTS

/-- JSON values as produced by `JSON.parse`.  Object fields are kept in
source order; duplicate keys resolve to the last one, as in JavaScript. -/
inductive Json where
  | null
  | bool (b : Bool)
  | num (lexeme : String)
  | str (s : String)
  | arr (items : List Json)
  | obj (fields : List (String × Json))

mutual

/-- Decidable equality of JSON values (structural). -/
def decEqJson : (a b : Json) → Decidable (a = b)
  | .null, .null => isTrue rfl
  | .null, .bool _ => isFalse fun h => Json.noConfusion h
  | .null, .num _ => isFalse fun h => Json.noConfusion h
  | .null, .str _ => isFalse fun h => Json.noConfusion h
  | .null, .arr _ => isFalse fun h => Json.noConfusion h
  | .null, .obj _ => isFalse fun h => Json.noConfusion h
  | .bool _, .null => isFalse fun h => Json.noConfusion h
  | .bool x, .bool y =>
    match decEq x y with
    | isTrue h => isTrue (by rw [h])
    | isFalse h => isFalse fun e => h (Json.noConfusion e id)
  | .bool _, .num _ => isFalse fun h => Json.noConfusion h
  | .bool _, .str _ => isFalse fun h => Json.noConfusion h
  | .bool _, .arr _ => isFalse fun h => Json.noConfusion h
  | .bool _, .obj _ => isFalse fun h => Json.noConfusion h
  | .num _, .null => isFalse fun h => Json.noConfusion h
  | .num _, .bool _ => isFalse fun h => Json.noConfusion h
  | .num x, .num y =>
    match decEq x y with
    | isTrue h => isTrue (by rw [h])
    | isFalse h => isFalse fun e => h (Json.noConfusion e id)
  | .num _, .str _ => isFalse fun h => Json.noConfusion h
  | .num _, .arr _ => isFalse fun h => Json.noConfusion h
  | .num _, .obj _ => isFalse fun h => Json.noConfusion h
  | .str _, .null => isFalse fun h => Json.noConfusion h
  | .str _, .bool _ => isFalse fun h => Json.noConfusion h
  | .str _, .num _ => isFalse fun h => Json.noConfusion h
  | .str x, .str y =>
    match decEq x y with
    | isTrue h => isTrue (by rw [h])
    | isFalse h => isFalse fun e => h (Json.noConfusion e id)
  | .str _, .arr _ => isFalse fun h => Json.noConfusion h
  | .str _, .obj _ => isFalse fun h => Json.noConfusion h
  | .arr _, .null => isFalse fun h => Json.noConfusion h
  | .arr _, .bool _ => isFalse fun h => Json.noConfusion h
  | .arr _, .num _ => isFalse fun h => Json.noConfusion h
  | .arr _, .str _ => isFalse fun h => Json.noConfusion h
  | .arr xs, .arr ys =>
    match decEqJsonList xs ys with
    | isTrue h => isTrue (by rw [h])
    | isFalse h => isFalse fun e => h (Json.noConfusion e id)
  | .arr _, .obj _ => isFalse fun h => Json.noConfusion h
  | .obj _, .null => isFalse fun h => Json.noConfusion h
  | .obj _, .bool _ => isFalse fun h => Json.noConfusion h
  | .obj _, .num _ => isFalse fun h => Json.noConfusion h
  | .obj _, .str _ => isFalse fun h => Json.noConfusion h
  | .obj _, .arr _ => isFalse fun h => Json.noConfusion h
  | .obj xs, .obj ys =>
    match decEqJsonFields xs ys with
    | isTrue h => isTrue (by rw [h])
    | isFalse h => isFalse fun e => h (Json.noConfusion e id)

/-- Decidable equality of JSON value lists. -/
def decEqJsonList : (a b : List Json) → Decidable (a = b)
  | [], [] => isTrue rfl
  | [], _ :: _ => isFalse fun h => List.noConfusion h
  | _ :: _, [] => isFalse fun h => List.noConfusion h
  | x :: xs, y :: ys =>
    match decEqJson x y with
    | isFalse h1 => isFalse fun e => h1 (List.noConfusion e fun h _ => h)
    | isTrue h1 =>
      match decEqJsonList xs ys with
      | isTrue h2 => isTrue (by rw [h1, h2])
      | isFalse h2 => isFalse fun e => h2 (List.noConfusion e fun _ h => h)

/-- Decidable equality of JSON object field lists. -/
def decEqJsonFields : (a b : List (String × Json)) → Decidable (a = b)
  | [], [] => isTrue rfl
  | [], _ :: _ => isFalse fun h => List.noConfusion h
  | _ :: _, [] => isFalse fun h => List.noConfusion h
  | (k1, v1) :: xs, (k2, v2) :: ys =>
    match decEq k1 k2 with
    | isFalse hk => isFalse fun e => by
        injection e with h1 h2
        injection h1 with hk1 hv1
        exact hk hk1
    | isTrue hk =>
      match decEqJson v1 v2 with
      | isFalse hv => isFalse fun e => by
          injection e with h1 h2
          injection h1 with hk1 hv1
          exact hv hv1
      | isTrue hv =>
        match decEqJsonFields xs ys with
        | isTrue ht => isTrue (by rw [hk, hv, ht])
        | isFalse ht => isFalse fun e => ht (List.noConfusion e fun _ h => h)

end

instance : DecidableEq Json := decEqJson

/-- JSON insignificant whitespace (RFC 8259: space, tab, newline, carriage return). -/
def jsonWs (c : Char) : Bool :=
  c = ' ' || c = '\t' || c = '\n' || c = '\r'

/-- Drop leading JSON whitespace. -/
def skipWs (cs : List Char) : List Char :=
  cs.dropWhile jsonWs

/-- Value of a hexadecimal digit, if any. -/
def hexVal (c : Char) : Option Nat :=
  if '0' ≤ c ∧ c ≤ '9' then some (c.toNat - '0'.toNat)
  else if 'a' ≤ c ∧ c ≤ 'f' then some (c.toNat - 'a'.toNat + 10)
  else if 'A' ≤ c ∧ c ≤ 'F' then some (c.toNat - 'A'.toNat + 10)
  else none

/-- Parse the body of a JSON string literal (the opening quote already
consumed), accumulating decoded characters in reverse.  Handles the JSON
escapes; a `\uXXXX` escape decodes to the corresponding scalar value
(an invalid scalar falls back to `Char.ofNat`'s default). -/
def pString : Nat → List Char → List Char → Option (String × List Char)
  | 0, _, _ => none
  | _ + 1, _, [] => none
  | fuel + 1, acc, c :: rest =>
    if c = '"' then some (⟨acc.reverse⟩, rest)
    else if c = '\\' then
      match rest with
      | [] => none
      | e :: rest2 =>
        if e = '"' then pString fuel ('"' :: acc) rest2
        else if e = '\\' then pString fuel ('\\' :: acc) rest2
        else if e = '/' then pString fuel ('/' :: acc) rest2
        else if e = 'b' then pString fuel (Char.ofNat 8 :: acc) rest2
        else if e = 'f' then pString fuel (Char.ofNat 12 :: acc) rest2
        else if e = 'n' then pString fuel ('\n' :: acc) rest2
        else if e = 'r' then pString fuel ('\r' :: acc) rest2
        else if e = 't' then pString fuel ('\t' :: acc) rest2
        else if e = 'u' then
          match rest2 with
          | h1 :: h2 :: h3 :: h4 :: rest3 =>
            match hexVal h1, hexVal h2, hexVal h3, hexVal h4 with
            | some a, some b, some c2, some d =>
                pString fuel (Char.ofNat (((a * 16 + b) * 16 + c2) * 16 + d) :: acc) rest3
            | _, _, _, _ => none
          | _ => none
        else none
    else if c.toNat < 32 then none
    else pString fuel (c :: acc) rest

/-- Split off a maximal run of decimal digits. -/
def digitsTake (cs : List Char) : List Char × List Char :=
  (cs.takeWhile Char.isDigit, cs.dropWhile Char.isDigit)

/-- Parse an optional JSON fraction part, returning the consumed characters. -/
def pFrac (cs : List Char) : Option (List Char × List Char) :=
  match cs with
  | '.' :: rest =>
    match digitsTake rest with
    | ([], _) => none
    | (ds, rest2) => some ('.' :: ds, rest2)
  | _ => some ([], cs)

/-- Parse an optional JSON exponent part, returning the consumed characters. -/
def pExp (cs : List Char) : Option (List Char × List Char) :=
  match cs with
  | e :: rest =>
    if e = 'e' ∨ e = 'E' then
      let signAndRest : List Char × List Char :=
        match rest with
        | '+' :: r => (['+'], r)
        | '-' :: r => (['-'], r)
        | _ => ([], rest)
      match digitsTake signAndRest.2 with
      | ([], _) => none
      | (ds, rest2) => some (e :: (signAndRest.1 ++ ds), rest2)
    else some ([], cs)
  | [] => some ([], [])

/-- Parse a JSON number per the RFC 8259 grammar, keeping its lexeme. -/
def pNumber (cs : List Char) : Option (String × List Char) :=
  let signAndRest : List Char × List Char :=
    match cs with
    | '-' :: rest => (['-'], rest)
    | _ => ([], cs)
  match signAndRest.2 with
  | [] => none
  | c :: rest =>
    let intPart : Option (List Char × List Char) :=
      if c = '0' then some (['0'], rest)
      else if c.isDigit then
        let ds := digitsTake rest
        some (c :: ds.1, ds.2)
      else none
    match intPart with
    | none => none
    | some (ip, cs2) =>
      match pFrac cs2 with
      | none => none
      | some (fp, cs3) =>
        match pExp cs3 with
        | none => none
        | some (ep, cs4) => some (⟨signAndRest.1 ++ ip ++ fp ++ ep⟩, cs4)

mutual

/-- Parse one JSON value.  Fuel decreases on every mutual call; parsing a
value consumes at least one character per two fuel ticks. -/
def pVal : Nat → List Char → Option (Json × List Char)
  | 0, _ => none
  | fuel + 1, cs =>
    match skipWs cs with
    | [] => none
    | c :: rest =>
      if c = '{' then
        match skipWs rest with
        | '}' :: rest2 => some (.obj [], rest2)
        | cs2 => pMember fuel cs2 []
      else if c = '[' then
        match skipWs rest with
        | ']' :: rest2 => some (.arr [], rest2)
        | cs2 => pItem fuel cs2 []
      else if c = '"' then
        match pString (rest.length + 1) [] rest with
        | some (s, rest2) => some (.str s, rest2)
        | none => none
      else if c = 't' then
        match rest with
        | 'r' :: 'u' :: 'e' :: rest2 => some (.bool true, rest2)
        | _ => none
      else if c = 'f' then
        match rest with
        | 'a' :: 'l' :: 's' :: 'e' :: rest2 => some (.bool false, rest2)
        | _ => none
      else if c = 'n' then
        match rest with
        | 'u' :: 'l' :: 'l' :: rest2 => some (.null, rest2)
        | _ => none
      else
        match pNumber (c :: rest) with
        | some (lx, rest2) => some (.num lx, rest2)
        | none => none

/-- Parse the members of a JSON object, the cursor standing before a key. -/
def pMember : Nat → List Char → List (String × Json) → Option (Json × List Char)
  | 0, _, _ => none
  | fuel + 1, cs, acc =>
    match skipWs cs with
    | '"' :: rest =>
      match pString (rest.length + 1) [] rest with
      | none => none
      | some (k, rest2) =>
        match skipWs rest2 with
        | ':' :: rest3 =>
          match pVal fuel rest3 with
          | none => none
          | some (v, rest4) =>
            match skipWs rest4 with
            | ',' :: rest5 => pMember fuel rest5 ((k, v) :: acc)
            | '}' :: rest5 => some (.obj ((k, v) :: acc).reverse, rest5)
            | _ => none
        | _ => none
    | _ => none

/-- Parse the items of a JSON array, the cursor standing before a value. -/
def pItem : Nat → List Char → List Json → Option (Json × List Char)
  | 0, _, _ => none
  | fuel + 1, cs, acc =>
    match pVal fuel cs with
    | none => none
    | some (v, rest) =>
      match skipWs rest with
      | ',' :: rest2 => pItem fuel rest2 (v :: acc)
      | ']' :: rest2 => some (.arr (v :: acc).reverse, rest2)
      | _ => none

end

/-- Model of `JSON.parse`: parse a complete JSON document, rejecting
trailing garbage.  The fuel `2 * length + 4` is always sufficient. -/
def parseJson (s : String) : Option Json :=
  let cs := s.data
  match pVal (2 * cs.length + 4) cs with
  | some (v, rest) => if skipWs rest = [] then some v else none
  | none => none

/-- Look a key up in a JSON object's field list; the last binding wins,
matching `JSON.parse`'s duplicate-key behaviour. -/
def objField : List (String × Json) → String → Option Json
  | [], _ => none
  | (k, v) :: rest, key =>
    match objField rest key with
    | some r => some r
    | none => if k = key then some v else none

/-- Model of a JavaScript property read `j.key`: only objects have fields,
a missing field is `undefined` (`none`).  (Reading a property of `null`
throws; that case is handled at the single place it can occur.) -/
def jsField : Json → String → Option Json
  | .obj fields, key => objField fields key
  | _, _ => none

/-- Read a field declared as `string` in the wire types; a non-string
runtime value is treated as absent. -/
def strField (j : Json) (key : String) : Option String :=
  match jsField j key with
  | some (.str s) => some s
  | _ => none

/-- The `type` discriminator of a parsed event, when it is a string. -/
def typeOf (j : Json) : Option String :=
  strField j "type"

/-- Whether a JSON number lexeme denotes zero (every digit of the integer
and fraction parts is `0`). -/
def numIsZero (lexeme : String) : Bool :=
  (lexeme.data.takeWhile (fun c => c != 'e' && c != 'E')).all
    (fun c => c == '0' || c == '.' || c == '-')

/-- JavaScript truthiness of a JSON value. -/
def jsTruthy : Json → Bool
  | .null => false
  | .bool b => b
  | .num lx => !(numIsZero lx)
  | .str s => s != ""
  | .arr _ => true
  | .obj _ => true

/-- Lower-case hexadecimal digit. -/
def hexDigit (n : Nat) : Char :=
  if n < 10 then Char.ofNat ('0'.toNat + n) else Char.ofNat ('a'.toNat + n - 10)

/-- Escape one character as inside a `JSON.stringify` string literal. -/
def escChar (c : Char) : List Char :=
  if c = '"' then ['\\', '"']
  else if c = '\\' then ['\\', '\\']
  else if c = '\n' then ['\\', 'n']
  else if c = '\r' then ['\\', 'r']
  else if c = '\t' then ['\\', 't']
  else if c.toNat = 8 then ['\\', 'b']
  else if c.toNat = 12 then ['\\', 'f']
  else if c.toNat < 32 then
    ['\\', 'u', '0', '0', hexDigit (c.toNat / 16), hexDigit (c.toNat % 16)]
  else [c]

/-- Quote a string as `JSON.stringify` does. -/
def quoteString (s : String) : String :=
  ⟨'"' :: (s.data.map escChar).flatten ++ ['"']⟩

/-- Indentation of `n` spaces. -/
def indentStr (n : Nat) : String :=
  ⟨List.replicate n ' '⟩

mutual

/-- Model of `JSON.stringify(v, null, 2)` at indentation level `ind`
(the indentation of the line the value starts on). -/
def stringifyVal : Json → Nat → String
  | .null, _ => "null"
  | .bool true, _ => "true"
  | .bool false, _ => "false"
  | .num lx, _ => lx
  | .str s, _ => quoteString s
  | .arr [], _ => "[]"
  | .arr (x :: xs), ind =>
      "[\n" ++ stringifyItems (x :: xs) (ind + 2) ++ "\n" ++ indentStr ind ++ "]"
  | .obj [], _ => "\x7b\x7d"
  | .obj (f :: fs), ind =>
      "\x7b\n" ++ stringifyFields (f :: fs) (ind + 2) ++ "\n" ++ indentStr ind ++ "\x7d"

/-- Stringify array items, one per line at indentation `ind`. -/
def stringifyItems : List Json → Nat → String
  | [], _ => ""
  | [x], ind => indentStr ind ++ stringifyVal x ind
  | x :: y :: xs, ind =>
      indentStr ind ++ stringifyVal x ind ++ ",\n" ++ stringifyItems (y :: xs) ind

/-- Stringify object members, one per line at indentation `ind`. -/
def stringifyFields : List (String × Json) → Nat → String
  | [], _ => ""
  | [(k, v)], ind => indentStr ind ++ quoteString k ++ ": " ++ stringifyVal v ind
  | (k, v) :: f :: fs, ind =>
      indentStr ind ++ quoteString k ++ ": " ++ stringifyVal v ind ++ ",\n" ++
        stringifyFields (f :: fs) ind

end

/-- Model of `JSON.stringify(v, null, 2)`. -/
def stringify2 (j : Json) : String :=
  stringifyVal j 0

/-- Trim whitespace from both ends of a character list (the character
class is Lean's `Char.isWhitespace`, a faithful model of the JavaScript
`String.prototype.trim` class for the ASCII inputs of this protocol). -/
def trimChars (cs : List Char) : List Char :=
  ((cs.dropWhile Char.isWhitespace).reverse.dropWhile Char.isWhitespace).reverse

/-- Model of JavaScript `text.trim()`. -/
def jsTrim (s : String) : String :=
  ⟨trimChars s.data⟩

/-! ## Data model

The snapshot and message shapes, from the `Snapshot` type of the source
and the `Message` shape described by the spec (the `Message` type itself
lives outside `src/`, in `@/components/message`; the source reads
`id`, `role`, `content` and `parts` and builds parts of kind
`tool-invocation` only, other kinds are carried through untouched). -/

/-- Message role. -/
inductive MsgRole where
  | user
  | assistant
deriving DecidableEq

/-- Session status: `ready | submitted | streaming`. -/
inductive SessionStatus where
  | ready
  | submitted
  | streaming
deriving DecidableEq

/-- Tool invocation lifecycle state: `streaming | call | result`. -/
inductive ToolInvocationState where
  | streaming
  | call
  | result
deriving DecidableEq

/-- The `toolInvocation` payload of a tool-invocation part.  `none`
models an `undefined` field. -/
structure ToolInvocation where
  toolCallId : String
  toolName : Option String
  state : ToolInvocationState
  args : Option Json
  argsText : Option String
  result : Option Json
deriving DecidableEq

/-- One entry of a message's `parts` sequence: a tool-invocation part,
or a part of any other kind (opaque to this controller). -/
inductive MsgPart where
  | toolInvocation (toolInvocation : ToolInvocation)
  | other (kind : String)
deriving DecidableEq

/-- A transcript message. -/
structure Message where
  id : String
  role : MsgRole
  content : String
  parts : Option (List MsgPart)
deriving DecidableEq

/-- The observable session snapshot. -/
structure Snapshot where
  messages : List Message
  input : String
  status : SessionStatus
  isInitializing : Bool
  streamUrl : Option String
  sandboxId : Option String
deriving DecidableEq

/-- The whole mutable state of one `RealtimeSession` instance: the
snapshot plus the private correlation fields.  `fresh` models the
`Date.now()`/`Math.random()` id supply, `emits` counts listener
notifications, `errorCalls` counts invocations of the `onError`
callback (`hasOnError` records whether one was supplied). -/
structure SessionState where
  snapshot : Snapshot
  hasAbortController : Bool
  hasOnError : Bool
  currentTextId : Option String
  toolMessageMap : List (String × String)
  activeScreenshotToolId : Option String
  fresh : Nat
  emits : Nat
  errorCalls : Nat
deriving DecidableEq

/-- The state a fresh `RealtimeSession` starts in (`isInitializing` is
initially `true`). -/
def initialSession (hasOnError : Bool) : SessionState :=
  { snapshot := { messages := [], input := "", status := .ready,
                  isInitializing := true, streamUrl := none, sandboxId := none },
    hasAbortController := false, hasOnError := hasOnError, currentTextId := none,
    toolMessageMap := [], activeScreenshotToolId := none,
    fresh := 0, emits := 0, errorCalls := 0 }

/-- Model of `updateSnapshot`: replace the snapshot with a shallow-merged
copy and notify every listener (counted by `emits`). -/
def updateSnapshot (s : SessionState) (f : Snapshot → Snapshot) : SessionState :=
  { s with snapshot := f s.snapshot, emits := s.emits + 1 }

/-- Model of `replaceMessages`. -/
def replaceMessages (s : SessionState) (messages : List Message) : SessionState :=
  updateSnapshot s (fun sn => { sn with messages := messages })

/-- Id of a user message, `user-<now>-<random>` in the source. -/
def userIdStr (n : Nat) : String :=
  "user-" ++ toString n

/-- Id of a streamed assistant message, `assistant-<now>-<random>`. -/
def assistantIdStr (n : Nat) : String :=
  "assistant-" ++ toString n

/-- Id of a tool-invocation message, `tool-<toolCallId>-<now>`. -/
def toolIdStr (toolCallId : String) (n : Nat) : String :=
  "tool-" ++ toolCallId ++ "-" ++ toString n

/-- Lookup in the `toolCallId → messageId` map. -/
def mapLookup : List (String × String) → String → Option String
  | [], _ => none
  | (k, v) :: rest, key => if k = key then some v else mapLookup rest key

/-- Branch of `handleTextDelta` with no open text accumulation: create a
new assistant message with the delta as initial content and record it as
the open one. -/
def textDeltaNew (s : SessionState) (delta : String) : SessionState :=
  let assistantMessage : Message :=
    { id := assistantIdStr s.fresh, role := .assistant, content := delta, parts := none }
  let s2 : SessionState :=
    { s with currentTextId := some assistantMessage.id, fresh := s.fresh + 1 }
  replaceMessages s2 (s2.snapshot.messages ++ [assistantMessage])

/-- Branch of `handleTextDelta` with an open accumulation `tid`: append
the delta in place to that message's content, all others untouched. -/
def textDeltaAppend (s : SessionState) (tid : String) (delta : String) : SessionState :=
  replaceMessages s (s.snapshot.messages.map (fun message =>
    if message.id = tid then { message with content := message.content ++ delta }
    else message))

/-- Dispatch of `handleTextDelta` on `this.currentTextId`. -/
def textDeltaCore (s : SessionState) (delta : String) : Option String → SessionState
  | none => textDeltaNew s delta
  | some tid => textDeltaAppend s tid delta

/-- Model of `handleTextDelta`: open a new assistant message if no text
accumulation is open, else append the delta in place to the open one. -/
def handleTextDelta (s : SessionState) (delta : String) : SessionState :=
  textDeltaCore s delta s.currentTextId

/-- The partial `updates` record passed to `handleToolEvent`.  The outer
`Option` records whether the key is present in the literal object at the
call site (an absent key is not spread over the old invocation); the
inner value is the field's value, `none` being `undefined`. -/
structure ToolUpdates where
  toolName : Option (Option String)
  args : Option (Option Json)
  argsText : Option (Option String)
  result : Option (Option Json)
deriving DecidableEq

/-- Merge semantics of `{ ...part.toolInvocation, ...updates, state }`. -/
def mergeInvocation (old : ToolInvocation) (upd : ToolUpdates) (st : ToolInvocationState) :
    ToolInvocation :=
  { toolCallId := old.toolCallId,
    toolName := upd.toolName.getD old.toolName,
    state := st,
    args := upd.args.getD old.args,
    argsText := upd.argsText.getD old.argsText,
    result := upd.result.getD old.result }

/-- Branch of `handleToolEvent` for an unseen `toolCallId`: record the
new message id in the map, append a new assistant message whose sole
part is the invocation in the given state, and close any open text
accumulation. -/
def toolEventNew (s : SessionState) (toolCallId : String)
    (st : ToolInvocationState) (updates : ToolUpdates) : SessionState :=
  let messageId := toolIdStr toolCallId s.fresh
  let invocation : ToolInvocation :=
    { toolCallId := toolCallId, toolName := updates.toolName.join, state := st,
      args := updates.args.join, argsText := updates.argsText.join,
      result := updates.result.join }
  let toolMessage : Message :=
    { id := messageId, role := .assistant, content := "",
      parts := some [MsgPart.toolInvocation invocation] }
  let s2 : SessionState :=
    { s with toolMessageMap := s.toolMessageMap ++ [(toolCallId, messageId)],
             currentTextId := none, fresh := s.fresh + 1 }
  replaceMessages s2 (s2.snapshot.messages ++ [toolMessage])

/-- The per-part replacement of the update branch: only the matching
tool-invocation part is merged, state always overwritten. -/
def toolPartUpdate (toolCallId : String) (st : ToolInvocationState)
    (updates : ToolUpdates) (p : MsgPart) : MsgPart :=
  match p with
  | MsgPart.other _ => p
  | MsgPart.toolInvocation ti =>
    if ti.toolCallId ≠ toolCallId then p
    else MsgPart.toolInvocation (mergeInvocation ti updates st)

/-- Branch of `handleToolEvent` for a seen `toolCallId` owned by message
`messageId`: replace only the matching part's invocation fields in that
message, leaving other parts and messages untouched. -/
def toolEventUpdate (s : SessionState) (toolCallId : String)
    (st : ToolInvocationState) (updates : ToolUpdates) (messageId : String) : SessionState :=
  replaceMessages s (s.snapshot.messages.map (fun message =>
    if message.id ≠ messageId then message
    else
      match message.parts with
      | none => message
      | some parts =>
        { message with parts := some (parts.map (toolPartUpdate toolCallId st updates)) }))

/-- Dispatch of `handleToolEvent` on the map lookup. -/
def toolEventCore (s : SessionState) (toolCallId : String)
    (st : ToolInvocationState) (updates : ToolUpdates) : Option String → SessionState
  | none => toolEventNew s toolCallId st updates
  | some messageId => toolEventUpdate s toolCallId st updates messageId

/-- Model of `handleToolEvent`: upsert the tool-invocation part keyed by
`toolCallId`.  Unseen id: append a new assistant message whose sole part
is the invocation in the given state (closing any open text
accumulation).  Seen id: locate the owning message and replace only the
matching part's invocation, state always overwritten. -/
def handleToolEvent (s : SessionState) (toolCallId : String)
    (st : ToolInvocationState) (updates : ToolUpdates) : SessionState :=
  toolEventCore s toolCallId st updates (mapLookup s.toolMessageMap toolCallId)

/-- Whether a tool call's `input` signals `\x7b action: "screenshot" \x7d`
(the optional-chained check `input?.action === "screenshot"`). -/
def screenshotActionOf (input : Option Json) : Bool :=
  match input with
  | some j =>
    match jsField j "action" with
    | some (Json.str a) => a == "screenshot"
    | _ => false
  | none => false

/-- Whether a tool call's `output` is image-typed
(the optional-chained check `output?.type === "image"`). -/
def imageTypedOutput (output : Option Json) : Bool :=
  match output with
  | some j =>
    match jsField j "type" with
    | some (Json.str t) => t == "image"
    | _ => false
  | none => false

/-- The delta string of a text-delta event, from the two accepted field
names: `event.delta || event.textDelta || ""`. -/
def deltaOf (delta textDelta : Option String) : String :=
  match delta with
  | some d => if d = "" then textDelta.getD "" else d
  | none => textDelta.getD ""

/-- The inner payload check of the screenshot-update branch:
`if (!screenshotEvent.screenshot) return`, then route an image result to
the active call. -/
def screenshotShot (s : SessionState) (active : String) : Option String → SessionState
  | none => s
  | some shot =>
    if shot = "" then s
    else handleToolEvent s active .result
      { toolName := none, args := none, argsText := none,
        result := some (some (Json.obj [("type", Json.str "image"),
                                        ("data", Json.str shot)])) }

/-- The screenshot-update branch, dispatching on the currently active
screenshot tool call: `if (!this.activeScreenshotToolId) return`. -/
def screenshotBranch (s : SessionState) (ev : Json) : Option String → SessionState
  | none => s
  | some active => screenshotShot s active (strField ev "screenshot")

/-- The dispatch switch of `processLine`, keyed on `event.type`
(passed separately so that theorems can case on the discriminator). -/
def dispatchByType (s : SessionState) (ev : Json) : Option String → SessionState
  | some "text-delta" =>
    let delta := deltaOf (strField ev "delta") (strField ev "textDelta")
    if delta = "" then s else handleTextDelta s delta
  | some "tool-input-available" =>
    (match strField ev "toolCallId" with
    | some tid =>
      if tid = "" then s
      else
        let input := jsField ev "input"
        let s2 := handleToolEvent s tid .call
          { toolName := some (strField ev "toolName"),
            args := some input,
            argsText := some (match input with
              | some j => if jsTruthy j then some (stringify2 j) else none
              | none => none),
            result := none }
        if screenshotActionOf input then { s2 with activeScreenshotToolId := some tid } else s2
    | none => s)
  | some "tool-output-available" =>
    (match strField ev "toolCallId" with
    | some tid =>
      if tid = "" then s
      else
        let output := jsField ev "output"
        let s2 := handleToolEvent s tid .result
          { toolName := none, args := none, argsText := none, result := some output }
        if imageTypedOutput output then { s2 with activeScreenshotToolId := some tid } else s2
    | none => s)
  | some "screenshot-update" =>
    screenshotBranch s ev s.activeScreenshotToolId
  | some "finish" =>
    updateSnapshot { s with currentTextId := none } (fun sn => { sn with status := .ready })
  | some "error" =>
    let s2 := if s.hasOnError then { s with errorCalls := s.errorCalls + 1 } else s
    updateSnapshot s2 (fun sn => { sn with status := .ready })
  | some _ => s
  | none => s

/-- Model of `processLine`: trim the raw line, skip it when blank, parse
it as JSON discarding it on failure, then dispatch on `event.type`.
Reading `.type` of a parsed `null` throws a `TypeError` (modelled by
`Except.error`), which aborts the surrounding turn. -/
def processLine (s : SessionState) (rawLine : String) : Except Unit SessionState :=
  let line := jsTrim rawLine
  if line = "" then .ok s
  else
    match parseJson line with
    | none => .ok s
    | some Json.null => .error ()
    | some ev => .ok (dispatchByType s ev (typeOf ev))

/-- Process a sequence of framed lines in arrival order, short-circuiting
on a thrown exception. -/
def processLines (s : SessionState) : List String → Except Unit SessionState
  | [] => .ok s
  | l :: rest =>
    match processLine s l with
    | .ok s2 => processLines s2 rest
    | .error e => .error e

/-- The synchronous prologue of `sendMessage` (everything before the
`fetch` suspension point): the three no-op guards, appending the user
message, resetting the per-turn correlation pointers, the snapshot
update, and installing a fresh abort controller. -/
def sendMessageStart (s : SessionState) (text : String) (clearInput : Bool) : SessionState :=
  let trimmed := jsTrim text
  if trimmed = "" then s
  else if s.snapshot.status = .streaming ∨ s.snapshot.status = .submitted then s
  else if s.snapshot.isInitializing then s
  else
    let userMessage : Message :=
      { id := userIdStr s.fresh, role := .user, content := trimmed, parts := none }
    let newMessages := s.snapshot.messages ++ [userMessage]
    let s2 : SessionState :=
      { s with currentTextId := none, activeScreenshotToolId := none, fresh := s.fresh + 1 }
    let s3 := updateSnapshot s2 (fun sn =>
      { sn with messages := newMessages,
                input := if clearInput then "" else sn.input,
                status := .submitted })
    { s3 with hasAbortController := true }

/-- Model of `stop()`: abort the in-flight request if any and force the
status back to `ready`. -/
def stop (s : SessionState) : SessionState :=
  let s2 := if s.hasAbortController then { s with hasAbortController := false } else s
  updateSnapshot s2 (fun sn => { sn with status := .ready })

/-- Normal completion of the stream-reading loop (lines 159-160 of the
source): drop the abort controller and return to `ready`. -/
def finishTurnOk (s : SessionState) : SessionState :=
  updateSnapshot { s with hasAbortController := false } (fun sn => { sn with status := .ready })

/-- The `catch` handler of `sendMessage` (lines 161-171): a deliberate
abort is only logged, any other failure is surfaced to the `onError`
callback when one is registered; either way the status returns to
`ready` and the transcript is untouched. -/
def catchTurn (s : SessionState) (isAbortError : Bool) : SessionState :=
  let s2 :=
    if isAbortError then s
    else if s.hasOnError then { s with errorCalls := s.errorCalls + 1 } else s
  updateSnapshot s2 (fun sn => { sn with status := .ready })

/-! ## Incremental line framer

The read loop of `sendMessage` (lines 137-157): decoded chunks are
appended to a rolling buffer; the prefix up to each newline is repeatedly
extracted (`indexOf` / `slice`) and handed to `processLine`; on stream
end a non-blank remainder is handed over as one final line.  Chunks are
modelled as decoded text (`List Char`): the streaming `TextDecoder` of
the source guarantees that byte chunking is invisible at the text level,
so every byte-level split corresponds to a character-level split here. -/

/-- Extract every complete (newline-terminated) line from the buffer,
front to back, returning the lines and the remaining buffer after the
last newline.  This is the `while (newlineIndex !== -1)` loop. -/
def extract : List Char → List (List Char) × List Char
  | [] => ([], [])
  | c :: rest =>
    if c = '\n' then ([] :: (extract rest).1, (extract rest).2)
    else
      match (extract rest).1 with
      | [] => ([], c :: (extract rest).2)
      | l :: ls => ((c :: l) :: ls, (extract rest).2)

/-- Run the framing loop over a chunk sequence starting from `buffer`,
collecting every line handed to `processLine`; on stream end the
remainder is handed over only when it does not trim to blank
(`if (buffer.trim())`). -/
def frameChunks (buffer : List Char) : List (List Char) → List (List Char)
  | [] => if (trimChars buffer).isEmpty then [] else [buffer]
  | chunk :: rest =>
    (extract (buffer ++ chunk)).1 ++ frameChunks (extract (buffer ++ chunk)).2 rest

/-- The events the framer dispatches for a chunk sequence: each framed
line is trimmed and blank lines are silently skipped (the first two
lines of `processLine`). -/
def framedEvents (chunks : List (List Char)) : List (List Char) :=
  (frameChunks [] chunks).filterMap (fun l =>
    if (trimChars l).isEmpty then none else some (trimChars l))

/-- Split a text at every newline: one entry per newline-terminated line
plus the final remainder (possibly empty). -/
def splitNL : List Char → List (List Char)
  | [] => [[]]
  | c :: rest =>
    if c = '\n' then [] :: splitNL rest
    else
      match splitNL rest with
      | [] => [[c]]
      | l :: ls => (c :: l) :: ls

/-- The event sequence the spec prescribes for a whole stream text: one
event per newline-terminated line, one final event for the remainder,
each trimmed, the blank ones skipped. -/
def canonicalEvents (text : List Char) : List (List Char) :=
  ((splitNL text).map trimChars).filter (fun l => !l.isEmpty)

/-! ## Concrete fixtures and observation helpers for the claims -/

/-- First wire line of the text-delta scenario. -/
def lineDeltaHe : String :=
  "\x7b\"type\":\"text-delta\",\"delta\":\"He\"\x7d"

/-- Second wire line of the text-delta scenario. -/
def lineDeltaLlo : String :=
  "\x7b\"type\":\"text-delta\",\"delta\":\"llo\"\x7d"

/-- Wire line `tool-input-available` for `toolCallId "a"`. -/
def lineToolInputA : String :=
  "\x7b\"type\":\"tool-input-available\",\"toolCallId\":\"a\",\"toolName\":\"x\",\"input\":\x7b\x7d\x7d"

/-- Wire line `tool-output-available` for `toolCallId "a"` with output `\x7b"ok":true\x7d`. -/
def lineToolOutputA : String :=
  "\x7b\"type\":\"tool-output-available\",\"toolCallId\":\"a\",\"output\":\x7b\"ok\":true\x7d\x7d"

/-- Wire line `tool-output-available` for `toolCallId "b"`. -/
def lineToolOutputB : String :=
  "\x7b\"type\":\"tool-output-available\",\"toolCallId\":\"b\",\"output\":\x7b\x7d\x7d"

/-- Wire line `tool-input-available` for `toolCallId "b"`. -/
def lineToolInputB : String :=
  "\x7b\"type\":\"tool-input-available\",\"toolCallId\":\"b\",\"toolName\":\"t\",\"input\":\x7b\x7d\x7d"

/-- A session that has finished initializing and sits idle at `ready`. -/
def readyState : SessionState :=
  { snapshot := { messages := [], input := "", status := .ready,
                  isInitializing := false, streamUrl := none, sandboxId := none },
    hasAbortController := false, hasOnError := false, currentTextId := none,
    toolMessageMap := [], activeScreenshotToolId := none,
    fresh := 0, emits := 0, errorCalls := 0 }

/-- A session in the middle of receiving a stream. -/
def streamingState : SessionState :=
  { readyState with
    snapshot := { readyState.snapshot with status := .streaming },
    hasAbortController := true }

/-- The first tool-invocation payload for a given `toolCallId` inside a
message, if any. -/
def firstToolPartFor (m : Message) (id : String) : Option ToolInvocation :=
  match m.parts with
  | none => none
  | some ps => ps.findSome? (fun p =>
      match p with
      | MsgPart.toolInvocation ti => if ti.toolCallId = id then some ti else none
      | MsgPart.other _ => none)

/-- All tool-invocation payloads for a given `toolCallId` across the
transcript, in message order. -/
def toolPartsFor (s : SessionState) (id : String) : List ToolInvocation :=
  s.snapshot.messages.filterMap (fun m => firstToolPartFor m id)

/-- State of the unique tool-invocation part for `id` after processing
`lines` from `streamingState`; `none` when there is no unique such part
or the stream threw. -/
def toolStateAfter (lines : List String) (id : String) : Option ToolInvocationState :=
  match processLines streamingState lines with
  | .ok s =>
    match toolPartsFor s id with
    | [ti] => some ti.state
    | _ => none
  | .error _ => none

/-- The transcript at the end of a processing run, `none` if it threw. -/
def transcriptOf : Except Unit SessionState → Option (List Message)
  | .ok s => some s.snapshot.messages
  | .error _ => none

/-- The `updates` record `processLine` passes for `lineToolInputA`. -/
def updInA : ToolUpdates :=
  { toolName := some (some "x"), args := some (some (Json.obj [])),
    argsText := some (some "\x7b\x7d"), result := none }

/-- The `updates` record `processLine` passes for `lineToolOutputA`. -/
def updOutA : ToolUpdates :=
  { toolName := none, args := none, argsText := none,
    result := some (some (Json.obj [("ok", Json.bool true)])) }

/-- The invocation left by `lineToolInputA` followed by `lineToolOutputA`. -/
def finalInvA : ToolInvocation :=
  { toolCallId := "a", toolName := some "x", state := .result,
    args := some (Json.obj []), argsText := some "\x7b\x7d",
    result := some (Json.obj [("ok", Json.bool true)]) }

/-- The single tool-invocation message those two events leave behind. -/
def finalToolMsgA (n : Nat) : Message :=
  { id := toolIdStr "a" n, role := .assistant, content := "",
    parts := some [MsgPart.toolInvocation finalInvA] }

/-- A tool invocation for `toolCallId "b"` already in state `result`. -/
def wInvB : ToolInvocation :=
  { toolCallId := "b", toolName := some "t", state := .result,
    args := none, argsText := none, result := some (Json.obj []) }

/-- The message owning `wInvB`. -/
def wMsgB : Message :=
  { id := "m1", role := .assistant, content := "",
    parts := some [MsgPart.toolInvocation wInvB] }

/-- A session whose transcript already holds a `result`-state invocation
for `toolCallId "b"`, correlated in the map. -/
def wStateB : SessionState :=
  { readyState with
    snapshot := { readyState.snapshot with messages := [wMsgB] },
    toolMessageMap := [("b", "m1")] }

/-- The `updates` record of a `tool-input-available` event carrying
neither `toolName` nor `input` values. -/
def wUpdCall : ToolUpdates :=
  { toolName := some none, args := some none, argsText := some none, result := none }

end RTS

namespace RTS

/-! ## Helper lemmas -/

/-- Map with a function that is the identity on every element. -/
theorem mapSelf {α : Type} (l : List α) (f : α → α) (h : ∀ x ∈ l, f x = x) :
    l.map f = l := by
  induction l with
  | nil => rfl
  | cons a l ih =>
    simp only [List.map_cons]
    rw [h a (by simp), ih (fun x hx => h x (by simp [hx]))]

/-- Appending map entries does not shadow an absent key. -/
theorem mapLookup_append_none (l1 l2 : List (String × String)) (k : String)
    (h : mapLookup l1 k = none) : mapLookup (l1 ++ l2) k = mapLookup l2 k := by
  induction l1 with
  | nil => rfl
  | cons a rest ih =>
    obtain ⟨k1, v1⟩ := a
    by_cases hk : k1 = k
    · simp [mapLookup, hk] at h
    · simp only [List.cons_append, mapLookup, if_neg hk] at h ⊢
      exact ih h

/-- A line that does not parse leaves the session untouched. -/
theorem processLine_of_unparsed (s : SessionState) (l : String)
    (h : parseJson (jsTrim l) = none) : processLine s l = .ok s := by
  simp only [processLine]
  by_cases hb : jsTrim l = ""
  · rw [if_pos hb]
  · rw [if_neg hb, h]

/-- A newline-free buffer frames no line. -/
theorem extract_of_no_nl (cs : List Char) (h : '\n' ∉ cs) : extract cs = ([], cs) := by
  induction cs with
  | nil => rfl
  | cons c rest ih =>
    have hc : ¬(c = '\n') := fun e => h (by rw [e]; exact List.mem_cons_self _ _)
    have hr : '\n' ∉ rest := fun e => h (List.mem_cons_of_mem _ e)
    simp only [extract, if_neg hc, ih hr]

/-- If extraction yields no line, the buffer is returned whole. -/
theorem extract_fst_nil (cs : List Char) (h : (extract cs).1 = []) : extract cs = ([], cs) := by
  induction cs with
  | nil => rfl
  | cons c rest ih =>
    by_cases hc : c = '\n'
    · simp only [extract, if_pos hc] at h
      exact List.noConfusion h
    · rcases hE : (extract rest).1 with _ | ⟨l, ls⟩
      · have h2 := ih hE
        simp only [extract, if_neg hc, h2]
      · simp only [extract, if_neg hc, hE] at h
        exact List.noConfusion h

/-- The buffer left by extraction holds no newline. -/
theorem no_nl_extract_snd (cs : List Char) : '\n' ∉ (extract cs).2 := by
  induction cs with
  | nil => simp [extract]
  | cons c rest ih =>
    by_cases hc : c = '\n'
    · simp only [extract, if_pos hc]
      exact ih
    · rcases hE : (extract rest).1 with _ | ⟨l, ls⟩
      · simp only [extract, if_neg hc, hE]
        intro hmem
        rcases List.mem_cons.mp hmem with he | he
        · exact hc he.symm
        · exact ih he
      · simp only [extract, if_neg hc, hE]
        exact ih

/-- Extraction composes over appending more input to the buffer. -/
theorem extract_append (a b : List Char) :
    extract (a ++ b) = ((extract a).1 ++ (extract ((extract a).2 ++ b)).1,
                        (extract ((extract a).2 ++ b)).2) := by
  induction a with
  | nil => simp [extract]
  | cons c rest ih =>
    by_cases hc : c = '\n'
    · have h3 : extract (c :: rest) = ([] :: (extract rest).1, (extract rest).2) := by
        simp only [extract, if_pos hc]
      rw [h3, List.cons_append]
      have h4 : extract (c :: (rest ++ b)) =
          ([] :: (extract (rest ++ b)).1, (extract (rest ++ b)).2) := by
        simp only [extract, if_pos hc]
      rw [h4, ih]
      simp
    · rcases hE : (extract rest).1 with _ | ⟨l, ls⟩
      · have h2 := extract_fst_nil rest hE
        have h3 : extract (c :: rest) = ([], c :: rest) := by
          simp only [extract, if_neg hc, h2]
        rw [h3, List.cons_append]
        simp
      · have h3 : extract (c :: rest) = ((c :: l) :: ls, (extract rest).2) := by
          simp only [extract, if_neg hc, hE]
        have hfst : (extract (rest ++ b)).1 =
            l :: (ls ++ (extract ((extract rest).2 ++ b)).1) := by
          rw [ih]
          simp [hE]
        have hsnd : (extract (rest ++ b)).2 = (extract ((extract rest).2 ++ b)).2 := by
          rw [ih]
        have h5 : extract (c :: (rest ++ b)) =
            ((c :: l) :: (ls ++ (extract ((extract rest).2 ++ b)).1),
             (extract ((extract rest).2 ++ b)).2) := by
          simp only [extract, if_neg hc, hfst, hsnd]
        rw [List.cons_append, h5, h3]
        simp

/-- The newline split of a text is the framed lines plus the remainder. -/
theorem splitNL_eq_extract (cs : List Char) :
    splitNL cs = (extract cs).1 ++ [(extract cs).2] := by
  induction cs with
  | nil => rfl
  | cons c rest ih =>
    by_cases hc : c = '\n'
    · simp only [splitNL, extract, if_pos hc, ih]
      simp
    · rcases hE : (extract rest).1 with _ | ⟨l, ls⟩
      · have h2 := extract_fst_nil rest hE
        simp only [splitNL, extract, if_neg hc, ih, h2]
        simp
      · simp only [splitNL, extract, if_neg hc, ih, hE]
        simp

/-- The framing loop over chunks equals one extraction over the whole
stream text followed by the final-remainder rule, for any newline-free
starting buffer. -/
theorem frameChunks_eq (chunks : List (List Char)) : ∀ buffer : List Char, '\n' ∉ buffer →
    frameChunks buffer chunks =
      (extract (buffer ++ chunks.flatten)).1 ++
        (if (trimChars (extract (buffer ++ chunks.flatten)).2).isEmpty then []
         else [(extract (buffer ++ chunks.flatten)).2]) := by
  induction chunks with
  | nil =>
    intro buffer hb
    have h2 := extract_of_no_nl buffer hb
    simp only [frameChunks, List.flatten_nil, List.append_nil, h2]
    by_cases h : (trimChars buffer).isEmpty <;> simp [h]
  | cons chunk rest ih =>
    intro buffer hb
    simp only [frameChunks]
    rw [ih _ (no_nl_extract_snd _)]
    rw [List.flatten_cons,
        show buffer ++ (chunk ++ rest.flatten) = (buffer ++ chunk) ++ rest.flatten from
          (List.append_assoc _ _ _).symm]
    rw [extract_append (buffer ++ chunk) rest.flatten]
    simp [List.append_assoc]

/-- Trimming then dropping blanks commutes with filterMap form. -/
theorem filterMap_trim_eq (l : List (List Char)) :
    l.filterMap (fun x => if (trimChars x).isEmpty then none else some (trimChars x)) =
      (l.map trimChars).filter (fun t => !t.isEmpty) := by
  induction l with
  | nil => rfl
  | cons a l ih =>
    by_cases h : trimChars a = []
    · simp [List.filterMap_cons, List.filter_cons, h]
      simpa using ih
    · simp [List.filterMap_cons, List.filter_cons, h]
      simpa using ih

/-! ## The claims -/

/-- C1: for every stream text and every way of splitting it into chunks,
the line framer dispatches the same sequence of events, namely the
canonical one: one event per newline-terminated line, one final event
for a non-empty remainder with no trailing newline at stream end, lines
that are blank after trimming silently skipped — so no line is ever
dropped or merged across a chunk boundary (the dispatched sequence
depends only on the concatenation of the chunks). -/
theorem line_framer_chunk_invariant (chunks : List (List Char)) :
    framedEvents chunks = canonicalEvents chunks.flatten := by
  unfold framedEvents canonicalEvents
  rw [frameChunks_eq chunks [] (by simp), splitNL_eq_extract]
  rw [List.nil_append]
  rw [List.filterMap_append, List.map_append, List.filter_append, filterMap_trim_eq]
  congr 1
  by_cases h : trimChars (extract chunks.flatten).2 = []
  · simp [h]
  · simp [h]

/-- C2: a `tool-input-available` event for `toolCallId "a"` followed by
a `tool-output-available` event for the same id with output
`\x7b"ok":true\x7d` leaves exactly one tool-invocation message for that id in
the transcript, in state `result` with that output as its result; a
second message for the same id is never created. -/
theorem tool_events_single_message (s : SessionState)
    (hmap : mapLookup s.toolMessageMap "a" = none)
    (hno : ∀ m ∈ s.snapshot.messages, firstToolPartFor m "a" = none)
    (hfresh : ∀ m ∈ s.snapshot.messages, m.id ≠ toolIdStr "a" s.fresh) :
    transcriptOf (processLines s [lineToolInputA, lineToolOutputA]) =
      some (s.snapshot.messages ++ [finalToolMsgA s.fresh]) ∧
    (s.snapshot.messages ++ [finalToolMsgA s.fresh]).filterMap
        (fun m => firstToolPartFor m "a") = [finalInvA] := by
  have step1 : processLine s lineToolInputA = .ok (handleToolEvent s "a" .call updInA) := rfl
  have step2 : ∀ t : SessionState,
      processLine t lineToolOutputA = .ok (handleToolEvent t "a" .result updOutA) :=
    fun t => rfl
  have hone : handleToolEvent s "a" .call updInA = toolEventNew s "a" .call updInA := by
    show toolEventCore s "a" .call updInA (mapLookup s.toolMessageMap "a") = _
    rw [hmap]
    rfl
  have hmap1 : mapLookup (toolEventNew s "a" .call updInA).toolMessageMap "a" =
      some (toolIdStr "a" s.fresh) := by
    show mapLookup (s.toolMessageMap ++ [("a", toolIdStr "a" s.fresh)]) "a" = _
    rw [mapLookup_append_none _ _ _ hmap]
    simp [mapLookup]
  have htwo : handleToolEvent (toolEventNew s "a" .call updInA) "a" .result updOutA =
      toolEventUpdate (toolEventNew s "a" .call updInA) "a" .result updOutA
        (toolIdStr "a" s.fresh) := by
    show toolEventCore _ "a" .result updOutA
        (mapLookup (toolEventNew s "a" .call updInA).toolMessageMap "a") = _
    rw [hmap1]
    rfl
  constructor
  · simp only [processLines, step1, step2, hone, htwo]
    simp only [transcriptOf, toolEventNew, toolEventUpdate, replaceMessages, updateSnapshot]
    simp only [Option.some.injEq]
    simp only [List.map_append]
    rw [mapSelf (s.snapshot.messages) _ (fun m hm => if_pos (hfresh m hm))]
    simp [toolPartUpdate, mergeInvocation, updInA, updOutA, finalToolMsgA, finalInvA,
      Option.join]
  · rw [List.filterMap_append]
    rw [List.filterMap_eq_nil_iff.mpr hno]
    simp [finalToolMsgA, firstToolPartFor, finalInvA, List.findSome?]

/-- C2 witness: the two events processed from a plain streaming session. -/
theorem tool_events_single_message_witness :
    transcriptOf (processLines streamingState [lineToolInputA, lineToolOutputA]) =
      some (streamingState.snapshot.messages ++ [finalToolMsgA streamingState.fresh]) ∧
    (streamingState.snapshot.messages ++ [finalToolMsgA streamingState.fresh]).filterMap
        (fun m => firstToolPartFor m "a") = [finalInvA] :=
  tool_events_single_message streamingState rfl (by decide) (by decide)

/-- C3 counterexample: when the first event carrying `toolCallId "b"` is
a `tool-output-available`, the part is created directly in state
`result` (not `call`); a `tool-input-available` for the same id arriving
afterwards moves the part back to state `call`, so the state does
regress after `result`, contrary to the claim. -/
theorem tool_state_regression_counterexample :
    toolStateAfter [lineToolOutputB] "b" = some .result ∧
    toolStateAfter [lineToolOutputB, lineToolInputB] "b" = some .call :=
  ⟨by decide, by decide⟩

/-- C3 amended: the tool-invocation part is created when the first event
carrying its `toolCallId` arrives, in that event's state (`call` for
input events, `result` for output events), and every later event for the
same id overwrites the part's state to its own state — including a
`tool-input-available` moving a `result` back to `call`. -/
theorem tool_state_overwrite (s : SessionState) (tid : String)
    (st : ToolInvocationState) (upd : ToolUpdates) :
    (mapLookup s.toolMessageMap tid = none →
      ∃ inv : ToolInvocation,
        (handleToolEvent s tid st upd).snapshot.messages =
          s.snapshot.messages ++
            [{ id := toolIdStr tid s.fresh, role := .assistant, content := "",
               parts := some [MsgPart.toolInvocation inv] }] ∧
        inv.toolCallId = tid ∧ inv.state = st) ∧
    (∀ mid, mapLookup s.toolMessageMap tid = some mid →
      ∀ m ∈ (handleToolEvent s tid st upd).snapshot.messages, m.id = mid →
        ∀ ti : ToolInvocation, MsgPart.toolInvocation ti ∈ m.parts.getD [] →
          ti.toolCallId = tid → ti.state = st) := by
  constructor
  · intro hmap
    have h1 : handleToolEvent s tid st upd = toolEventNew s tid st upd := by
      show toolEventCore s tid st upd (mapLookup s.toolMessageMap tid) = _
      rw [hmap]
      rfl
    refine ⟨{ toolCallId := tid, toolName := upd.toolName.join, state := st,
              args := upd.args.join, argsText := upd.argsText.join,
              result := upd.result.join }, ?_, rfl, rfl⟩
    rw [h1]
    rfl
  · intro mid hmap m hm hid ti hti htid
    have h1 : handleToolEvent s tid st upd = toolEventUpdate s tid st upd mid := by
      show toolEventCore s tid st upd (mapLookup s.toolMessageMap tid) = _
      rw [hmap]
      rfl
    rw [h1] at hm
    simp only [toolEventUpdate, replaceMessages, updateSnapshot] at hm
    rw [List.mem_map] at hm
    obtain ⟨m0, hm0, hm0eq⟩ := hm
    by_cases hne : m0.id ≠ mid
    · rw [if_pos hne] at hm0eq
      rw [← hm0eq] at hid
      exact absurd hid hne
    · rw [if_neg hne] at hm0eq
      cases hp : m0.parts with
      | none =>
        rw [hp] at hm0eq
        rw [← hm0eq] at hti
        rw [hp] at hti
        simp at hti
      | some parts =>
        rw [hp] at hm0eq
        rw [← hm0eq] at hti
        simp only [Option.getD_some] at hti
        rw [List.mem_map] at hti
        obtain ⟨p0, hp0, hp0eq⟩ := hti
        cases p0 with
        | other k => simp [toolPartUpdate] at hp0eq
        | toolInvocation ti0 =>
          by_cases hne0 : ti0.toolCallId ≠ tid
          · simp only [toolPartUpdate, if_pos hne0] at hp0eq
            injection hp0eq with he
            rw [← he] at htid
            exact absurd htid hne0
          · simp only [toolPartUpdate, if_neg hne0] at hp0eq
            injection hp0eq with he
            rw [← he]
            rfl

/-- C3 amended witness: in a session already holding a `result`-state
invocation for `"b"`, a later `call`-state tool event overwrites the
part's state to `call`. -/
theorem tool_state_overwrite_witness :
    (mergeInvocation wInvB wUpdCall ToolInvocationState.call).state =
      ToolInvocationState.call :=
  (tool_state_overwrite wStateB "b" ToolInvocationState.call wUpdCall).2 "m1" rfl
    { wMsgB with parts := some [MsgPart.toolInvocation
        (mergeInvocation wInvB wUpdCall ToolInvocationState.call)] }
    (by decide) rfl
    (mergeInvocation wInvB wUpdCall ToolInvocationState.call)
    (by decide) rfl

/-- C4: the two text-delta lines `"He"` then `"llo"`, processed with no
open text accumulation, add exactly one new assistant message to the
transcript with content `"Hello"` — the first delta opens the message,
the second appends to it in place, and every previously present message
is untouched. -/
theorem text_delta_accumulation (s : SessionState)
    (hopen : s.currentTextId = none)
    (hfresh : ∀ m ∈ s.snapshot.messages, m.id ≠ assistantIdStr s.fresh) :
    transcriptOf (processLines s [lineDeltaHe, lineDeltaLlo]) =
      some (s.snapshot.messages ++
        [{ id := assistantIdStr s.fresh, role := .assistant,
           content := "Hello", parts := none }]) := by
  have step1 : processLine s lineDeltaHe = .ok (handleTextDelta s "He") := rfl
  have step2 : ∀ t : SessionState, processLine t lineDeltaLlo = .ok (handleTextDelta t "llo") :=
    fun t => rfl
  have hone : handleTextDelta s "He" = textDeltaNew s "He" := by
    show textDeltaCore s "He" s.currentTextId = _
    rw [hopen]
    rfl
  simp only [processLines, step1, step2, hone]
  have hsome : (textDeltaNew s "He").currentTextId = some (assistantIdStr s.fresh) := rfl
  have htwo : handleTextDelta (textDeltaNew s "He") "llo" =
      textDeltaAppend (textDeltaNew s "He") (assistantIdStr s.fresh) "llo" := by
    show textDeltaCore _ "llo" (textDeltaNew s "He").currentTextId = _
    rw [hsome]
    rfl
  rw [htwo]
  simp only [transcriptOf, textDeltaNew, textDeltaAppend, replaceMessages, updateSnapshot]
  simp only [List.map_append]
  rw [mapSelf (s.snapshot.messages) _ (fun m hm => if_neg (hfresh m hm))]
  simp

/-- C4 witness: the two deltas processed from a plain streaming session. -/
theorem text_delta_accumulation_witness :
    transcriptOf (processLines streamingState [lineDeltaHe, lineDeltaLlo]) =
      some (streamingState.snapshot.messages ++
        [{ id := assistantIdStr streamingState.fresh, role := .assistant,
           content := "Hello", parts := none }]) :=
  text_delta_accumulation streamingState rfl (by decide)

/-- C5: for every input whose trimmed form is non-empty, `sendMessage`
while `ready` and not initializing appends exactly one user message
carrying the trimmed text and transitions the status to `submitted`,
leaving every previously present message unchanged. -/
theorem send_message_appends_user (s : SessionState) (text : String) (clearInput : Bool)
    (ht : jsTrim text ≠ "") (hs : s.snapshot.status = .ready)
    (hi : s.snapshot.isInitializing = false) :
    (sendMessageStart s text clearInput).snapshot.messages =
      s.snapshot.messages ++
        [{ id := userIdStr s.fresh, role := .user, content := jsTrim text, parts := none }] ∧
    (sendMessageStart s text clearInput).snapshot.status = .submitted := by
  simp only [sendMessageStart, updateSnapshot, hs, hi]
  rw [if_neg ht]
  simp

/-- C5 witness: `"hi"` sent from an idle ready session. -/
theorem send_message_appends_user_witness :
    (sendMessageStart readyState "hi" false).snapshot.messages =
      readyState.snapshot.messages ++
        [{ id := userIdStr readyState.fresh, role := .user,
           content := jsTrim "hi", parts := none }] ∧
    (sendMessageStart readyState "hi" false).snapshot.status = .submitted :=
  send_message_appends_user readyState "hi" false (by decide) rfl rfl

/-- C6: `sendMessage` performs no mutation at all — the state, hence the
snapshot and the listener-notification count, is exactly what it was —
whenever the input trims to empty, the status is `submitted` or
`streaming`, or the session is still initializing. -/
theorem send_message_noop (s : SessionState) (text : String) (clearInput : Bool)
    (h : jsTrim text = "" ∨ s.snapshot.status = .submitted ∨ s.snapshot.status = .streaming ∨
         s.snapshot.isInitializing = true) :
    sendMessageStart s text clearInput = s := by
  simp only [sendMessageStart]
  by_cases h1 : jsTrim text = ""
  · rw [if_pos h1]
  rw [if_neg h1]
  by_cases h2 : s.snapshot.status = .streaming ∨ s.snapshot.status = .submitted
  · rw [if_pos h2]
  rw [if_neg h2]
  by_cases h3 : s.snapshot.isInitializing = true
  · rw [if_pos h3]
  exfalso
  rcases h with h | h | h | h
  · exact h1 h
  · exact h2 (Or.inr h)
  · exact h2 (Or.inl h)
  · exact h3 h

/-- C6 witness: whitespace-only input is a no-op. -/
theorem send_message_noop_witness :
    sendMessageStart readyState "   " true = readyState :=
  send_message_noop readyState "   " true (Or.inl (by decide))

/-- C7: a framed line that fails to parse as JSON is discarded without
aborting the stream, mutating the session or invoking the error
callback, and for any sequence of lines a malformed line between two
valid ones leaves the run equal to the run without it. -/
theorem malformed_line_discarded (s : SessionState) (pre post : List String) (bad : String)
    (hbad : parseJson (jsTrim bad) = none) :
    processLine s bad = .ok s ∧
    processLines s (pre ++ bad :: post) = processLines s (pre ++ post) := by
  refine ⟨processLine_of_unparsed s bad hbad, ?_⟩
  induction pre generalizing s with
  | nil =>
    simp only [List.nil_append, processLines, processLine_of_unparsed s bad hbad]
  | cons l rest ih =>
    simp only [List.cons_append, processLines]
    cases processLine s l with
    | ok s2 => exact ih s2
    | error e => rfl

/-- C7 witness: a non-JSON line between the two delta lines. -/
theorem malformed_line_discarded_witness :
    processLine readyState "\x7boops" = .ok readyState ∧
    processLines readyState [lineDeltaHe, "\x7boops", lineDeltaLlo] =
      processLines readyState [lineDeltaHe, lineDeltaLlo] :=
  malformed_line_discarded readyState [lineDeltaHe] [lineDeltaLlo] "\x7boops" (by decide)

/-- C8: every way a turn ends early — `stop()`, a cancellation
(`catchTurn` with an abort error), or a transport/response failure
(`catchTurn` with any other error) — as well as normal completion sets
the status back to `ready` and leaves the messages sequence exactly as
the mutations already applied had made it. -/
theorem turn_end_resets_status (s : SessionState) (isAbortError : Bool) :
    (stop s).snapshot.status = .ready ∧
    (stop s).snapshot.messages = s.snapshot.messages ∧
    (catchTurn s isAbortError).snapshot.status = .ready ∧
    (catchTurn s isAbortError).snapshot.messages = s.snapshot.messages ∧
    (finishTurnOk s).snapshot.status = .ready ∧
    (finishTurnOk s).snapshot.messages = s.snapshot.messages := by
  cases isAbortError <;> cases hc : s.hasAbortController <;> cases ho : s.hasOnError <;>
    simp [stop, catchTurn, finishTurnOk, updateSnapshot, hc, ho]

/-- C9: a `screenshot-update` event processed while no screenshot tool
call is active, or whose screenshot payload is missing, produces no
mutation at all: the whole session state, including the snapshot, the
correlation fields and the notification count, is unchanged. -/
theorem screenshot_update_ignored (s : SessionState) (ev : Json)
    (hty : typeOf ev = some "screenshot-update")
    (h : s.activeScreenshotToolId = none ∨ strField ev "screenshot" = none) :
    dispatchByType s ev (typeOf ev) = s := by
  rw [hty]
  show screenshotBranch s ev s.activeScreenshotToolId = s
  rcases h with h | h
  · rw [h]
    rfl
  · cases hA : s.activeScreenshotToolId with
    | none => rfl
    | some active =>
      show screenshotShot s active (strField ev "screenshot") = s
      rw [h]
      rfl

/-- C9 witness: a payload-free screenshot event at an idle session. -/
theorem screenshot_update_ignored_witness :
    dispatchByType readyState (Json.obj [("type", Json.str "screenshot-update")])
      (typeOf (Json.obj [("type", Json.str "screenshot-update")])) = readyState :=
  screenshot_update_ignored readyState _ rfl (Or.inl rfl)

/-- C10: a text-delta event whose delta resolves to the empty string
(both the `delta` and `textDelta` fields absent or empty) is dropped
entirely: it opens no message, touches no open one, and produces no
snapshot update or listener notification. -/
theorem empty_delta_dropped (s : SessionState) (ev : Json)
    (hty : typeOf ev = some "text-delta")
    (hd : strField ev "delta" = none ∨ strField ev "delta" = some "")
    (ht : strField ev "textDelta" = none ∨ strField ev "textDelta" = some "") :
    dispatchByType s ev (typeOf ev) = s := by
  rw [hty]
  show (if deltaOf (strField ev "delta") (strField ev "textDelta") = "" then s
        else handleTextDelta s (deltaOf (strField ev "delta") (strField ev "textDelta"))) = s
  have hres : deltaOf (strField ev "delta") (strField ev "textDelta") = "" := by
    rcases hd with hd | hd <;> rcases ht with ht | ht <;> simp [deltaOf, hd, ht]
  rw [if_pos hres]

/-- C10 witness: a text-delta event carrying an empty delta. -/
theorem empty_delta_dropped_witness :
    dispatchByType readyState (Json.obj [("type", Json.str "text-delta"), ("delta", Json.str "")])
      (typeOf (Json.obj [("type", Json.str "text-delta"), ("delta", Json.str "")])) = readyState :=
  empty_delta_dropped readyState _ rfl (Or.inr rfl) (Or.inl rfl)

end RTS
